import Mathlib

/-!
Verification development for the geo-swipe-lab backend (`backend/main.py`).

The Python source is shallowly embedded: pure string/byte manipulations are
translated directly; filesystem state is passed explicitly as lists of file
names; calls into external raster/vector libraries are abstracted by outcome
parameters (the code only branches on whether those calls succeed, raise a
particular exception class, or raise any other exception).
-/

/- ------------------------------------------------------------------
   String helpers (embedding Python's `in`, `startswith`, `endswith`,
   `str.lower`, and `pathlib.Path.name/.stem/.suffix` semantics).
   All operate on `String.data : List Char` by structural recursion so
   that concrete instances evaluate by `decide`/`rfl`.
   ------------------------------------------------------------------ -/

/-- Python `sub in s` (contiguous subsequence test) on character lists. -/
def containsSeq (sub : List Char) : List Char → Bool
  | [] => sub.isEmpty
  | c :: rest => sub.isPrefixOf (c :: rest) || containsSeq sub rest

/-- Python `s.startswith(p)`. -/
def strStartsWith (s p : String) : Bool := p.data.isPrefixOf s.data

/-- Python `s.endswith(p)`. -/
def strEndsWith (s p : String) : Bool := p.data.reverse.isPrefixOf s.data.reverse

/-- ASCII lower-casing of one character (the filenames handled by the
    service are ASCII; Python `str.lower` agrees on ASCII). -/
def charLower (c : Char) : Char :=
  if 'A' ≤ c ∧ c ≤ 'Z' then Char.ofNat (c.toNat + 32) else c

/-- Python `s.lower()` (ASCII fragment). -/
def strToLower (s : String) : String := ⟨s.data.map charLower⟩

/-- The final path component: `pathlib.Path(s).name`. -/
def pathName (s : String) : String :=
  ⟨(s.data.reverse.takeWhile (fun c => !(c == '/'))).reverse⟩

/-- `pathlib.Path(s).suffix`: from the last dot of the final component,
    provided that dot is neither the first nor the last character. -/
def pathSuffix (s : String) : String :=
  let cs := (pathName s).data
  let afterRev := cs.reverse.takeWhile (fun c => !(c == '.'))
  if ('.' ∈ cs) ∧ afterRev.length ≠ 0 ∧ (cs.length - 1 - afterRev.length) ≠ 0 then
    ⟨'.' :: afterRev.reverse⟩
  else ""

/-- `pathlib.Path(s).stem`: the final component minus `pathSuffix`. -/
def pathStem (s : String) : String :=
  let cs := (pathName s).data
  let afterRev := cs.reverse.takeWhile (fun c => !(c == '.'))
  if ('.' ∈ cs) ∧ afterRev.length ≠ 0 ∧ (cs.length - 1 - afterRev.length) ≠ 0 then
    ⟨cs.take (cs.length - 1 - afterRev.length)⟩
  else ⟨cs⟩

/-- Value of a digit run, as `int(...)` computes it. -/
def digitsToNat (cs : List Char) : Nat :=
  cs.foldl (fun a c => a * 10 + (c.toNat - 48)) 0

/- ------------------------------------------------------------------
   HTTP response model
   ------------------------------------------------------------------ -/

/-- An HTTP response as produced by the endpoint handlers: status code,
    explicitly-set headers, body bytes, and (for `HTTPException`) the
    `detail` string. -/
structure HttpResponse where
  status : Nat
  headers : List (String × String)
  body : List Nat
  detail : String
deriving DecidableEq

/-- The base header dict built in `get_cog_file` before branching. -/
def baseHeaders (contentType : String) : List (String × String) :=
  [("Accept-Ranges", "bytes"),
   ("Content-Type", contentType),
   ("Access-Control-Allow-Origin", "*"),
   ("Access-Control-Expose-Headers", "Content-Range, Content-Length, Accept-Ranges")]

/- ------------------------------------------------------------------
   Range header parsing: `re.match(r'bytes=(\d+)-(\d*)', range)`.
   `re.match` anchors at the start and ignores trailing characters;
   group 2 may be empty.
   ------------------------------------------------------------------ -/

/-- Parse a `Range` header the way the handler's regex does: `bytes=`
    then one-or-more digits, a dash, then zero-or-more digits; anything
    after the digit run is ignored.  Returns `(start, optional end)`. -/
def parseRange (s : String) : Option (Nat × Option Nat) :=
  let cs := s.data
  if "bytes=".data.isPrefixOf cs then
    let t := cs.drop 6
    let ds := t.takeWhile Char.isDigit
    if ds.isEmpty then none
    else
      match t.drop ds.length with
      | '-' :: rest2 =>
        let es := rest2.takeWhile Char.isDigit
        some (digitsToNat ds, if es.isEmpty then none else some (digitsToNat es))
      | _ => none
  else none

/- ------------------------------------------------------------------
   The chunked readers in `get_cog_file` (64 KiB chunks).
   ------------------------------------------------------------------ -/

/-- `64 * 1024`, the read chunk size. -/
def chunkSize : Nat := 64 * 1024

/-- The `iter_file_range` generator: starting at byte `pos`, repeatedly
    read `min(chunkSize, remaining)` bytes until `remaining` is
    exhausted or a read comes back empty. -/
def iterFileRange (content : List Nat) (pos remaining : Nat) : List Nat :=
  if _h0 : remaining = 0 then []
  else if _h : ((content.drop pos).take (min chunkSize remaining)).length = 0 then []
  else
    ((content.drop pos).take (min chunkSize remaining)) ++
      iterFileRange content (pos + ((content.drop pos).take (min chunkSize remaining)).length)
        (remaining - ((content.drop pos).take (min chunkSize remaining)).length)
termination_by remaining
decreasing_by omega

/-- The `iter_file` generator: read 64 KiB chunks from `pos` until an
    empty read. -/
def iterFileAux (content : List Nat) (pos : Nat) : List Nat :=
  if _h : ((content.drop pos).take chunkSize).length = 0 then []
  else
    ((content.drop pos).take chunkSize) ++
      iterFileAux content (pos + ((content.drop pos).take chunkSize).length)
termination_by content.length - pos
decreasing_by
  have hl : ((content.drop pos).take chunkSize).length ≤ content.length - pos := by
    simp [List.length_take, List.length_drop]
  omega

/-- `iter_file` from the start of the file. -/
def iterFile (content : List Nat) : List Nat := iterFileAux content 0

/- ------------------------------------------------------------------
   `get_cog_file` — the Range-serving endpoint.
   The filesystem is abstracted as: does the target exist, and what are
   its bytes (`file_size = content.length`).
   ------------------------------------------------------------------ -/

/-- Extensions servable by the COG endpoint. -/
def servableSuffixes : List String := [".tif", ".tiff", ".pmtiles"]

/-- Embedding of `get_cog_file(filename, request, range)`.
    `rangeHdr = none` models an absent `Range` header; note Python's
    `if range:` is also false for the empty string, and
    `parseRange "" = none`, so binding through `parseRange` matches the
    code's fall-through behaviour exactly. -/
def getCogFile (filename method : String) (rangeHdr : Option String)
    (fileExists : Bool) (content : List Nat) : HttpResponse :=
  if containsSeq "..".data filename.data || strStartsWith filename "/" then
    ⟨400, [], [], "Invalid filename"⟩
  else if strEndsWith (strToLower filename) ".ovr" then
    ⟨404, [], [], "External overview not found (using internal overviews)"⟩
  else if !fileExists then
    ⟨404, [], [], "File not found: " ++ filename⟩
  else if !(servableSuffixes.contains (strToLower (pathSuffix filename))) then
    ⟨400, [], [], "Only TIF and PMTiles files are served via this endpoint"⟩
  else
    let fileSize := content.length
    let contentType :=
      if strToLower (pathSuffix filename) = ".pmtiles" then "application/octet-stream"
      else "image/tiff"
    let hdrs := baseHeaders contentType
    match rangeHdr.bind parseRange with
    | some (start, endOpt) =>
      let e := min (endOpt.getD (fileSize - 1)) (fileSize - 1)
      if start > e ∨ start ≥ fileSize then
        ⟨416, [], [], "Range not satisfiable"⟩
      else
        let contentLength := e - start + 1
        ⟨206,
         hdrs ++
           [("Content-Range",
             "bytes " ++ toString start ++ "-" ++ toString e ++ "/" ++ toString fileSize),
            ("Content-Length", toString contentLength)],
         iterFileRange content start contentLength, ""⟩
    | none =>
      if method = "HEAD" then
        ⟨200, hdrs ++ [("Content-Length", toString fileSize)], [], ""⟩
      else
        ⟨200, hdrs ++ [("Content-Length", toString fileSize)], iterFile content, ""⟩

/- ------------------------------------------------------------------
   `get_xyz_tile` — the dynamic tile endpoint.
   The rio-tiler call `src.tile(x, y, z)` is abstracted by an outcome:
   it returns rendered bytes, raises `TileOutsideBounds`, or raises any
   other exception.  The handler only branches on which of these
   happened.
   ------------------------------------------------------------------ -/

/-- Outcome of opening the raster and extracting one tile. -/
inductive TileOutcome where
  | ok (png : List Nat)
  | outsideBounds
  | otherError (msg : String)
deriving DecidableEq

/-- The fixed 1×1 transparent PNG returned for out-of-bounds tiles. -/
def transparentPng : List Nat :=
  [0x89, 0x50, 0x4E, 0x47, 0x0D, 0x0A, 0x1A, 0x0A, 0x00, 0x00, 0x00, 0x0D,
   0x49, 0x48, 0x44, 0x52, 0x00, 0x00, 0x00, 0x01, 0x00, 0x00, 0x00, 0x01,
   0x08, 0x06, 0x00, 0x00, 0x00, 0x1F, 0x15, 0xC4, 0x89, 0x00, 0x00, 0x00,
   0x0A, 0x49, 0x44, 0x41, 0x54, 0x78, 0x9C, 0x63, 0x00, 0x01, 0x00, 0x00,
   0x05, 0x00, 0x01, 0x0D, 0x0A, 0x2D, 0xB4, 0x00, 0x00, 0x00, 0x00, 0x49,
   0x45, 0x4E, 0x44, 0xAE, 0x42, 0x60, 0x82]

/-- Headers set on successful tile responses. -/
def tileHeaders : List (String × String) :=
  [("Cache-Control", "public, max-age=3600"), ("Access-Control-Allow-Origin", "*")]

/-- Embedding of `get_xyz_tile(z, x, y, url)`. -/
def getXyzTile (_z _x _y : Int) (url : String) (fileExists : Bool)
    (outcome : TileOutcome) : HttpResponse :=
  if containsSeq "..".data url.data || strStartsWith url "/" then
    ⟨400, [], [], "Invalid filename"⟩
  else if !fileExists then
    ⟨404, [], [], "File not found: " ++ url⟩
  else if !([".tif", ".tiff"].contains (strToLower (pathSuffix url))) then
    ⟨400, [], [], "Only TIF files supported for tile generation"⟩
  else
    match outcome with
    | .ok png => ⟨200, tileHeaders, png, ""⟩
    | .outsideBounds => ⟨200, tileHeaders, transparentPng, ""⟩
    | .otherError m => ⟨500, [], [], "Tile generation error: " ++ m⟩

/- ------------------------------------------------------------------
   `convert_to_cog` overview pyramid selection.
   ------------------------------------------------------------------ -/

/-- The fixed candidate list `overview_levels = [2, 4, 8, 16, 32, 64]`. -/
def overviewLevels : List Nat := [2, 4, 8, 16, 32, 64]

/-- `valid_levels = [l for l in overview_levels if min_dim // l >= 64]`
    over the destination dimensions. -/
def validLevels (width height : Nat) : List Nat :=
  overviewLevels.filter (fun l => 64 ≤ min width height / l)

/- ------------------------------------------------------------------
   Conversion pipeline: `convert_to_cog`, `process_file_sync`,
   `upload_file`, `process_local_file`.
   The filesystem is the pair of upload/processed directory listings;
   raster and external-tool operations are abstracted by outcome
   parameters, since the code branches only on success/exception.
   ------------------------------------------------------------------ -/

/-- The two storage directories, as lists of file names. -/
structure FsState where
  uploads : List String
  processed : List String
deriving DecidableEq

/-- Result dict returned by `process_file_sync` on success. -/
structure ConversionResult where
  success : Bool
  id : String
  name : String
  kind : String
  url : String
  message : String
  pmtilesUrl : Option String
deriving DecidableEq

/-- Outcome of `convert_to_cog`'s rasterio work.  `openFail`: reading or
    transforming the source raster raises before the output dataset is
    created; `reprojectFail` / `overviewFail`: `reproject` or
    `build_overviews` raises after `rasterio.open(output_path, 'w', ...)`
    has created the output file. -/
inductive RasterOutcome where
  | ok
  | openFail
  | reprojectFail
  | overviewFail
deriving DecidableEq

/-- Effect of `convert_to_cog(input, output)` on the processed directory:
    the output file is created by opening it for write; a later exception
    propagates but does not remove it (there is no cleanup handler). -/
def convertToCog (outputName : String) (outcome : RasterOutcome) (fs : FsState) :
    Option String × FsState :=
  match outcome with
  | .openFail => (some "read error", fs)
  | .reprojectFail => (some "reprojection error", { fs with processed := outputName :: fs.processed })
  | .overviewFail => (some "overview error", { fs with processed := outputName :: fs.processed })
  | .ok => (none, { fs with processed := outputName :: fs.processed })

/-- The raster branch of `process_file_sync(input_path, filename, file_id,
    keep_source)`: convert to COG, then (on success only) delete the input
    file when it lives in the uploads directory and `keep_source` is off.
    An exception from `convert_to_cog` is re-raised unchanged. -/
def processFileSyncRaster (inputName filename fileId : String) (keepSource : Bool)
    (outcome : RasterOutcome) (fs : FsState) : Except String ConversionResult × FsState :=
  let originalName := pathStem filename
  let outputName := originalName ++ "_" ++ fileId ++ ".tif"
  match convertToCog outputName outcome fs with
  | (some e, fs1) => (.error e, fs1)
  | (none, fs1) =>
    let fs2 := if keepSource then fs1 else { fs1 with uploads := fs1.uploads.erase inputName }
    (.ok { success := true, id := fileId, name := originalName, kind := "raster",
           url := "/processed/" ++ outputName,
           message := "Raster converted to COG successfully", pmtilesUrl := none }, fs2)

/-- `upload_file` for a raster: stream the upload to
    `{file_id}_{filename}` in the uploads directory, run
    `process_file_sync`; on any exception unlink the uploaded input and
    answer 500.  The processed directory is left as the failed
    conversion left it. -/
def uploadFileRaster (filename fileId : String) (outcome : RasterOutcome) (fs : FsState) :
    HttpResponse × FsState :=
  let inputName := fileId ++ "_" ++ filename
  let fs1 := { fs with uploads := inputName :: fs.uploads }
  match processFileSyncRaster inputName filename fileId false outcome fs1 with
  | (.ok _, fs2) => (⟨200, [], [], ""⟩, fs2)
  | (.error e, fs2) =>
    (⟨500, [], [], "Processing error: " ++ e⟩,
     { fs2 with uploads := fs2.uploads.erase inputName })

/- ------------------------------------------------------------------
   Vector branch of `process_file_sync` (non-archive input): GeoJSON
   conversion, then best-effort PMTiles packaging via tippecanoe.
   ------------------------------------------------------------------ -/

/-- The vector branch of `process_file_sync` for a non-zip vector input.
    `geojsonOk` abstracts whether `convert_vector_to_geojson` succeeds
    (on failure its exception propagates); `pmtilesOk` abstracts whether
    the tippecanoe invocation in `convert_geojson_to_pmtiles` succeeds —
    its failure is caught, logged, and the job continues without the
    companion output. -/
def processFileSyncVector (inputName filename fileId : String) (keepSource : Bool)
    (geojsonOk pmtilesOk : Bool) (fs : FsState) : Except String ConversionResult × FsState :=
  let originalName := pathStem filename
  let outputName := originalName ++ "_" ++ fileId ++ ".geojson"
  if !geojsonOk then
    (.error "vector conversion error", fs)
  else
    let fs1 := { fs with processed := outputName :: fs.processed }
    let pmtilesName := originalName ++ "_" ++ fileId ++ ".pmtiles"
    let fs2 := if pmtilesOk then { fs1 with processed := pmtilesName :: fs1.processed } else fs1
    let pmtilesUrl : Option String :=
      if pmtilesOk then some ("/processed/" ++ pmtilesName) else none
    let fs3 := if keepSource then fs2 else { fs2 with uploads := fs2.uploads.erase inputName }
    (.ok { success := true, id := fileId, name := originalName, kind := "vector",
           url := "/processed/" ++ outputName,
           message := if pmtilesOk then "Vector converted to GeoJSON + PMTiles successfully"
                      else "Vector converted successfully",
           pmtilesUrl := pmtilesUrl }, fs3)

/- ------------------------------------------------------------------
   Asset identifiers: `upload_file` uses `str(uuid.uuid4())`,
   `process_local_file` uses `str(uuid.uuid4())[:8]`.
   `u` stands for the fresh `str(uuid.uuid4())` value (36 characters).
   ------------------------------------------------------------------ -/

/-- `file_id = str(uuid.uuid4())` in `upload_file`. -/
def uploadFileId (u : String) : String := u

/-- `file_id = str(uuid.uuid4())[:8]` in `process_local_file`. -/
def processLocalFileId (u : String) : String := ⟨u.data.take 8⟩

/- ------------------------------------------------------------------
   Layer catalog: `list_layers` and `delete_layer`.
   A directory entry is modelled as a (stem, suffix) pair, mirroring
   `pathlib`'s decomposition `name = stem + suffix`; the iteration order
   of `PROCESSED_DIR.iterdir()` is the list order.
   ------------------------------------------------------------------ -/

/-- A file in the processed directory: `pathlib` stem and suffix. -/
structure FileEntry where
  stem : String
  ext : String
deriving DecidableEq

/-- `file.name = stem + suffix`. -/
def entryName (f : FileEntry) : String := f.stem ++ f.ext

/-- A catalog entry as built by `list_layers` (the dict's `type` key is
    called `kind` here). -/
structure Layer where
  id : String
  name : String
  kind : String
  url : String
  pmtilesUrl : Option String
deriving DecidableEq

/-- `stem.rsplit('_', 1)[0] if '_' in stem else stem`: everything before
    the last underscore. -/
def displayName (s : String) : String :=
  if '_' ∈ s.data then ⟨((s.data.reverse.dropWhile (fun c => !(c == '_'))).drop 1).reverse⟩
  else s

/-- The catalog entry built for one (non-PMTiles, unseen) file: id is the
    full stem; kind is raster for `.tif`/`.tiff` else vector; the PMTiles
    companion URL is attached when `{stem}.pmtiles` exists in the
    directory. -/
def layerFor (files : List FileEntry) (f : FileEntry) : Layer :=
  { id := f.stem,
    name := displayName f.stem,
    kind := if strToLower f.ext = ".tif" ∨ strToLower f.ext = ".tiff" then "raster" else "vector",
    url := "/processed/" ++ entryName f,
    pmtilesUrl :=
      if files.any (fun g => entryName g == f.stem ++ ".pmtiles") then
        some ("/processed/" ++ f.stem ++ ".pmtiles")
      else none }

/-- The `list_layers` loop: skip every `.pmtiles` file, skip stems already
    seen, and otherwise emit `layerFor`.  `all` is the full directory
    listing (used for the companion-existence check), `rest` the files
    still to visit, `seen` the id set accumulated so far. -/
def listLayersAux (all : List FileEntry) : List FileEntry → List String → List Layer
  | [], _ => []
  | f :: rest, seen =>
    if strToLower f.ext = ".pmtiles" then listLayersAux all rest seen
    else if f.stem ∈ seen then listLayersAux all rest seen
    else layerFor all f :: listLayersAux all rest (f.stem :: seen)

/-- `GET /api/layers`: scan the processed directory. -/
def listLayers (files : List FileEntry) : List Layer := listLayersAux files files []

/-- The `delete_layer` loop: unlink the first file whose stem ends with
    `layer_id` and stop; report whether anything was deleted, plus the
    directory contents afterwards. -/
def deleteLayer (layerId : String) : List FileEntry → Bool × List FileEntry
  | [] => (false, [])
  | f :: rest =>
    if strEndsWith f.stem layerId then (true, rest)
    else
      let r := deleteLayer layerId rest
      (r.1, f :: r.2)

/-- `DELETE /api/layers/{layer_id}`: 200 on deletion, 404 otherwise. -/
def deleteLayerResponse (files : List FileEntry) (layerId : String) :
    HttpResponse × List FileEntry :=
  let r := deleteLayer layerId files
  if r.1 then (⟨200, [], [], ""⟩, r.2)
  else (⟨404, [], [], "Layer not found"⟩, r.2)

example : parseRange "bytes=0-99" = some (0, some 99) := by decide
example : parseRange "bytes=900-" = some (900, none) := by decide
example : parseRange "bytes=1000-1005" = some (1000, some 1005) := by decide
example : parseRange "" = none := by decide
example : parseRange "bytes=-5" = none := by decide
example : pathSuffix "a_x.tif" = ".tif" := by decide
example : pathSuffix "dir/a.tar.gz" = ".gz" := by decide
example : pathSuffix ".bashrc" = "" := by decide
example : pathSuffix "abc." = "" := by decide
example : pathStem "dir/a_x.tif" = "a_x" := by decide
example : (getCogFile "../secret" "GET" none true [1]).status = 400 := by decide
example : (getCogFile "a.tif" "GET" (some "bytes=1-2") true [9, 8, 7, 6]).status = 206 := by decide
example : (getCogFile "a.tif" "HEAD" (some "bytes=1-2") true [9, 8, 7, 6]).status = 206 := by decide
example : (getCogFile "a.tif" "HEAD" none true [9, 8, 7, 6]).status = 200 := by decide
example : (getCogFile "a.tif" "GET" (some "bytes=9-") true [9, 8, 7, 6]).status = 416 := by decide

/-- As long as the requested window fits inside the file, the chunked
    range reader returns exactly the requested byte window. -/
theorem iterFileRange_eq (content : List Nat) :
    ∀ remaining pos, pos + remaining ≤ content.length →
      iterFileRange content pos remaining = (content.drop pos).take remaining := by
  intro remaining
  induction remaining using Nat.strong_induction_on with
  | _ r ih =>
    intro pos hle
    rw [iterFileRange]
    by_cases h0 : r = 0
    · simp [h0]
    · simp only [h0, dite_false]
      have hdl : ((content.drop pos).take (min chunkSize r)).length = min chunkSize r := by
        simp only [List.length_take, List.length_drop]
        omega
      have hck : 0 < chunkSize := by unfold chunkSize; omega
      have hne : ¬((content.drop pos).take (min chunkSize r)).length = 0 := by
        rw [hdl]; omega
      simp only [hne, dite_false, hdl]
      rw [ih (r - min chunkSize r) (by omega) (pos + min chunkSize r) (by omega)]
      have hmin0 : ¬(min chunkSize r = 0) := by omega
      rw [dif_neg hmin0]
      have hr : r = min chunkSize r + (r - min chunkSize r) := by omega
      conv_rhs => rw [hr, List.take_add]
      rw [List.drop_drop]

/-- C1: for a GET on an existing servable file whose `Range` header parses as
    `bytes=<start>-[<end>]`, with `e` the end clamped to `S-1`: if
    `start > e` or `start ≥ S` the response is 416; otherwise it is 206
    with exactly `e-start+1` body bytes starting at offset `start` and
    headers `Content-Range: bytes <start>-<e>/<S>`,
    `Content-Length: e-start+1`, `Accept-Ranges: bytes`. -/
theorem getCogFile_range_semantics
    (filename : String) (content : List Nat) (hdr : String)
    (start S e : Nat) (endOpt : Option Nat)
    (h1 : containsSeq "..".data filename.data = false)
    (h2 : strStartsWith filename "/" = false)
    (h3 : strEndsWith (strToLower filename) ".ovr" = false)
    (h5 : servableSuffixes.contains (strToLower (pathSuffix filename)) = true)
    (hparse : parseRange hdr = some (start, endOpt))
    (hS : S = content.length)
    (he : e = min (endOpt.getD (S - 1)) (S - 1)) :
    (start > e ∨ start ≥ S →
      (getCogFile filename "GET" (some hdr) true content).status = 416) ∧
    (start ≤ e ∧ start < S →
      (getCogFile filename "GET" (some hdr) true content).status = 206 ∧
      (getCogFile filename "GET" (some hdr) true content).body =
        (content.drop start).take (e - start + 1) ∧
      (getCogFile filename "GET" (some hdr) true content).body.length = e - start + 1 ∧
      ("Content-Range", "bytes " ++ toString start ++ "-" ++ toString e ++ "/" ++ toString S) ∈
        (getCogFile filename "GET" (some hdr) true content).headers ∧
      ("Content-Length", toString (e - start + 1)) ∈
        (getCogFile filename "GET" (some hdr) true content).headers ∧
      ("Accept-Ranges", "bytes") ∈
        (getCogFile filename "GET" (some hdr) true content).headers) := by
  subst hS
  subst he
  unfold getCogFile
  simp only [h1, h2, h3, h5, Bool.or_self, Bool.false_or, Bool.or_false, if_false,
    Bool.not_true, Bool.not_false, if_true, Bool.false_eq_true, if_neg, ite_false, ite_true]
  simp only [Option.some_bind, hparse]
  constructor
  · intro hcase
    rw [if_pos hcase]
  · rintro ⟨ha, hb⟩
    have hneg : ¬(start > min (endOpt.getD (content.length - 1)) (content.length - 1) ∨
        start ≥ content.length) := by
      push_neg
      exact ⟨ha, hb⟩
    rw [if_neg hneg]
    have hfit : start + (min (endOpt.getD (content.length - 1)) (content.length - 1) - start + 1) ≤
        content.length := by omega
    refine ⟨rfl, ?_, ?_, ?_, ?_, ?_⟩
    · exact iterFileRange_eq content _ start hfit
    · rw [iterFileRange_eq content _ start hfit]
      simp only [List.length_take, List.length_drop]
      omega
    · exact List.mem_append_right _ (List.mem_cons_self _ _)
    · exact List.mem_append_right _ (List.mem_cons_of_mem _ (List.mem_cons_self _ _))
    · exact List.mem_append_left _ (List.mem_cons_self _ _)

/-- C1 witness: `bytes=1-2` on the 4-byte file `[9,8,7,6]` yields 206 with
    body `[8,7]`. -/
theorem getCogFile_range_semantics_witness :
    (getCogFile "a.tif" "GET" (some "bytes=1-2") true [9, 8, 7, 6]).status = 206 ∧
    (getCogFile "a.tif" "GET" (some "bytes=1-2") true [9, 8, 7, 6]).body = [8, 7] := by
  have h := getCogFile_range_semantics "a.tif" [9, 8, 7, 6] "bytes=1-2" 1 4 2 (some 2)
    (by decide) (by decide) (by decide) (by decide) (by decide) (by decide) (by decide)
  obtain ⟨-, h2⟩ := h
  obtain ⟨hst, hbody, -⟩ := h2 (by decide)
  refine ⟨hst, ?_⟩
  rw [hbody]
  decide

/-- C3: on a valid, existing `.tif`, a tile request whose tile lies outside
    the raster's bounds returns the fixed 1×1 transparent PNG with status
    200 (a success, never an error), while any other read/render failure
    returns status 500, distinct from the bounds-miss status. -/
theorem getXyzTile_bounds_miss (z x y : Int) (url : String)
    (h1 : containsSeq "..".data url.data = false)
    (h2 : strStartsWith url "/" = false)
    (h5 : [".tif", ".tiff"].contains (strToLower (pathSuffix url)) = true) :
    (getXyzTile z x y url true .outsideBounds).status = 200 ∧
    (getXyzTile z x y url true .outsideBounds).body = transparentPng ∧
    (∀ m, (getXyzTile z x y url true (.otherError m)).status = 500) ∧
    (∀ m, (getXyzTile z x y url true (.otherError m)).status ≠
          (getXyzTile z x y url true .outsideBounds).status) := by
  have hcond : (!([".tif", ".tiff"].contains (strToLower (pathSuffix url)))) = false := by
    rw [h5]; rfl
  have e1 : getXyzTile z x y url true .outsideBounds = ⟨200, tileHeaders, transparentPng, ""⟩ := by
    unfold getXyzTile
    rw [h1, h2, hcond]
    rfl
  have e2 : ∀ m, getXyzTile z x y url true (.otherError m) =
      ⟨500, [], [], "Tile generation error: " ++ m⟩ := by
    intro m
    unfold getXyzTile
    rw [h1, h2, hcond]
    rfl
  refine ⟨by rw [e1], by rw [e1], fun m => by rw [e2 m], fun m => ?_⟩
  rw [e2 m, e1]
  exact (by decide : (500 : Nat) ≠ 200)

/-- C3 witness: tile `z=0,x=0,y=0` for `a.tif` outside bounds gives the
    transparent PNG with status 200; a generic failure gives 500. -/
theorem getXyzTile_bounds_miss_witness :
    (getXyzTile 0 0 0 "a.tif" true .outsideBounds).status = 200 ∧
    (getXyzTile 0 0 0 "a.tif" true .outsideBounds).body = transparentPng ∧
    (getXyzTile 0 0 0 "a.tif" true (.otherError "boom")).status = 500 := by
  have h := getXyzTile_bounds_miss 0 0 0 "a.tif" (by decide) (by decide) (by decide)
  exact ⟨h.1, h.2.1, h.2.2.1 "boom"⟩

/-- C4 counterexample: a HEAD request carrying a parseable `Range` header is
    handled by the range branch first, so it returns 206 with the partial
    `Content-Length`, not 200 with the full file size. -/
theorem getCogFile_head_range_counterexample :
    (getCogFile "a.tif" "HEAD" (some "bytes=0-0") true [7, 7, 7, 7]).status = 206 ∧
    (getCogFile "a.tif" "HEAD" (some "bytes=0-0") true [7, 7, 7, 7]).status ≠ 200 ∧
    ("Content-Length", "1") ∈
      (getCogFile "a.tif" "HEAD" (some "bytes=0-0") true [7, 7, 7, 7]).headers ∧
    ("Content-Length", "4") ∉
      (getCogFile "a.tif" "HEAD" (some "bytes=0-0") true [7, 7, 7, 7]).headers := by
  refine ⟨by decide, by decide, ?_, ?_⟩ <;> decide

/-- C4 (amended): a HEAD request on an existing servable file whose `Range`
    header is absent or fails to parse returns status 200 with headers only
    (no body) and a `Content-Length` equal to the full file size. -/
theorem getCogFile_head_semantics
    (filename : String) (content : List Nat) (rangeHdr : Option String)
    (h1 : containsSeq "..".data filename.data = false)
    (h2 : strStartsWith filename "/" = false)
    (h3 : strEndsWith (strToLower filename) ".ovr" = false)
    (h5 : servableSuffixes.contains (strToLower (pathSuffix filename)) = true)
    (hnr : rangeHdr.bind parseRange = none) :
    (getCogFile filename "HEAD" rangeHdr true content).status = 200 ∧
    (getCogFile filename "HEAD" rangeHdr true content).body = [] ∧
    ("Content-Length", toString content.length) ∈
      (getCogFile filename "HEAD" rangeHdr true content).headers := by
  have e : getCogFile filename "HEAD" rangeHdr true content =
      ⟨200,
       baseHeaders (if strToLower (pathSuffix filename) = ".pmtiles" then
          "application/octet-stream" else "image/tiff") ++
         [("Content-Length", toString content.length)],
       [], ""⟩ := by
    have hcond : (!(servableSuffixes.contains (strToLower (pathSuffix filename)))) = false := by
      rw [h5]; rfl
    unfold getCogFile
    simp only [h1, h2, h3, hcond, hnr, Bool.or_self, Bool.not_true, Bool.false_eq_true,
      if_false, ite_true, ite_false]
  rw [e]
  exact ⟨rfl, rfl, List.mem_append_right _ (List.mem_cons_self _ _)⟩

/-- C4 witness: HEAD with no `Range` header on the 3-byte file `[1,2,3]`
    returns 200, empty body, `Content-Length: 3`. -/
theorem getCogFile_head_semantics_witness :
    (getCogFile "a.tif" "HEAD" none true [1, 2, 3]).status = 200 ∧
    (getCogFile "a.tif" "HEAD" none true [1, 2, 3]).body = [] ∧
    ("Content-Length", "3") ∈ (getCogFile "a.tif" "HEAD" none true [1, 2, 3]).headers := by
  have h := getCogFile_head_semantics "a.tif" [1, 2, 3] none
    (by decide) (by decide) (by decide) (by decide) (by decide)
  exact h

/-- C6: a request whose path/url parameter contains `..` or starts with `/`
    is answered 400 "Invalid filename" by both the COG range endpoint and
    the tile endpoint, and the answer is the same whatever the filesystem
    contains — i.e. it is produced before any filesystem access. -/
theorem traversal_rejected (s : String)
    (h : containsSeq "..".data s.data = true ∨ strStartsWith s "/" = true) :
    (∀ method rangeHdr fileExists content,
      getCogFile s method rangeHdr fileExists content = ⟨400, [], [], "Invalid filename"⟩) ∧
    (∀ z x y fileExists outcome,
      getXyzTile z x y s fileExists outcome = ⟨400, [], [], "Invalid filename"⟩) := by
  constructor
  · intro method rangeHdr fileExists content
    unfold getCogFile
    rcases h with h' | h' <;> simp [h']
  · intro z x y fileExists outcome
    unfold getXyzTile
    rcases h with h' | h' <;> simp [h']

/-- C6 witness: `../secret` is rejected with 400 by both endpoints,
    independently of the filesystem. -/
theorem traversal_rejected_witness :
    getCogFile "../secret" "GET" none true [1, 2] = ⟨400, [], [], "Invalid filename"⟩ ∧
    getXyzTile 0 0 0 "../secret" false (.ok []) = ⟨400, [], [], "Invalid filename"⟩ := by
  have h := traversal_rejected "../secret" (Or.inl (by decide))
  exact ⟨h.1 "GET" none true [1, 2], h.2 0 0 0 false (.ok [])⟩

/-- C5: the retained overview levels are exactly the candidates `l` with
    `min(width,height)/l ≥ 64`, and they form a strictly increasing
    prefix of the candidate list (pruned from the top). -/
theorem validLevels_spec (width height : Nat) :
    (∀ l, l ∈ validLevels width height ↔
      (l ∈ overviewLevels ∧ 64 ≤ min width height / l)) ∧
    validLevels width height <+: overviewLevels ∧
    List.Sorted (· < ·) (validLevels width height) := by
  refine ⟨?_, ?_⟩
  · intro l
    simp [validLevels, List.mem_filter]
  · unfold validLevels overviewLevels
    simp only [List.filter_cons, List.filter_nil, decide_eq_true_eq]
    split_ifs <;> first | decide | (exfalso; omega)

/-- C5 witness: for a 300×5000 destination, levels 2 and 4 are retained
    (300/4 = 75 ≥ 64 but 300/8 = 37 < 64). -/
theorem validLevels_spec_witness :
    validLevels 300 5000 <+: overviewLevels ∧
    (4 ∈ validLevels 300 5000 ↔ (4 ∈ overviewLevels ∧ 64 ≤ min 300 5000 / 4)) ∧
    validLevels 300 5000 = [2, 4] := by
  refine ⟨(validLevels_spec 300 5000).2.1, (validLevels_spec 300 5000).1 4, by decide⟩

/-- C2 (code bug evidence): uploading raster `x.tif` whose reprojection
    raises after the output dataset has been created aborts the job with
    a 500 and unlinks the uploaded input, but the partially written
    `x_id0.tif` is left in the processed (servable) directory — there is
    no cleanup of the output anywhere on the failure path. -/
theorem convert_failure_leaves_partial_output :
    (uploadFileRaster "x.tif" "id0" .reprojectFail ⟨[], []⟩).1.status = 500 ∧
    (uploadFileRaster "x.tif" "id0" .reprojectFail ⟨[], []⟩).2.processed = ["x_id0.tif"] ∧
    (uploadFileRaster "x.tif" "id0" .reprojectFail ⟨[], []⟩).2.uploads = [] := by
  decide

/-- C8: when the GeoJSON conversion succeeds but the tippecanoe packaging
    step fails, the job still returns success with no companion PMTiles
    URL, and its result message differs from the one produced when the
    companion is present. -/
theorem vector_pmtiles_best_effort (inputName filename fileId : String) (keepSource : Bool)
    (fs : FsState) :
    (processFileSyncVector inputName filename fileId keepSource true false fs).1 =
      .ok { success := true, id := fileId, name := pathStem filename, kind := "vector",
            url := "/processed/" ++ (pathStem filename ++ "_" ++ fileId ++ ".geojson"),
            message := "Vector converted successfully", pmtilesUrl := none } ∧
    (processFileSyncVector inputName filename fileId keepSource true true fs).1 =
      .ok { success := true, id := fileId, name := pathStem filename, kind := "vector",
            url := "/processed/" ++ (pathStem filename ++ "_" ++ fileId ++ ".geojson"),
            message := "Vector converted to GeoJSON + PMTiles successfully",
            pmtilesUrl := some ("/processed/" ++ (pathStem filename ++ "_" ++ fileId ++ ".pmtiles")) } ∧
    ("Vector converted successfully" : String) ≠
      "Vector converted to GeoJSON + PMTiles successfully" := by
  refine ⟨rfl, rfl, by decide⟩

/-- C9 counterexample: the local-processing endpoint truncates the UUID to
    its first 8 characters, so not every job's asset identifier is a full
    36-character UUID. -/
theorem uuid_truncation_counterexample :
    processLocalFileId "123e4567-e89b-12d3-a456-426614174000" = "123e4567" ∧
    ("123e4567-e89b-12d3-a456-426614174000" : String).data.length = 36 ∧
    (processLocalFileId "123e4567-e89b-12d3-a456-426614174000").data.length = 8 := by
  decide

/-- C9 (amended): the streaming-upload endpoint's asset identifier is the
    full UUID string unchanged (36 characters), while the local-processing
    endpoint's identifier is the UUID truncated to its first 8 characters,
    hence different from the full token. -/
theorem assetId_schemes (u : String) (h : u.data.length = 36) :
    uploadFileId u = u ∧ (uploadFileId u).data.length = 36 ∧
    (processLocalFileId u).data.length = 8 ∧ processLocalFileId u ≠ uploadFileId u := by
  have h8 : (processLocalFileId u).data.length = 8 := by
    show (u.data.take 8).length = 8
    rw [List.length_take]
    omega
  refine ⟨rfl, h, h8, ?_⟩
  intro he
  rw [he] at h8
  have h36 : (uploadFileId u).data.length = 36 := h
  omega

/-- C9 witness: the two identifier schemes evaluated on a concrete UUID. -/
theorem assetId_schemes_witness :
    uploadFileId "123e4567-e89b-12d3-a456-426614174000" =
      "123e4567-e89b-12d3-a456-426614174000" ∧
    (processLocalFileId "123e4567-e89b-12d3-a456-426614174000").data.length = 8 := by
  have h := assetId_schemes "123e4567-e89b-12d3-a456-426614174000" (by decide)
  exact ⟨h.1, h.2.2.1⟩

/-- Every emitted catalog entry comes from a non-PMTiles file of the
    listing, is exactly `layerFor` of it, and its id was unseen. -/
theorem listLayersAux_mem (all : List FileEntry) :
    ∀ rest seen, ∀ L ∈ listLayersAux all rest seen,
      ∃ f ∈ rest, strToLower f.ext ≠ ".pmtiles" ∧ L = layerFor all f ∧ L.id ∉ seen := by
  intro rest
  induction rest with
  | nil =>
    intro seen L hL
    simp [listLayersAux] at hL
  | cons f rest ih =>
    intro seen L hL
    simp only [listLayersAux] at hL
    by_cases h1 : strToLower f.ext = ".pmtiles"
    · rw [if_pos h1] at hL
      obtain ⟨g, hg, hgx, hEq, hs⟩ := ih seen L hL
      exact ⟨g, List.mem_cons_of_mem _ hg, hgx, hEq, hs⟩
    · rw [if_neg h1] at hL
      by_cases h2 : f.stem ∈ seen
      · rw [if_pos h2] at hL
        obtain ⟨g, hg, hgx, hEq, hs⟩ := ih seen L hL
        exact ⟨g, List.mem_cons_of_mem _ hg, hgx, hEq, hs⟩
      · rw [if_neg h2] at hL
        rcases List.mem_cons.mp hL with hL | hL
        · exact ⟨f, List.mem_cons_self _ _, h1, hL, by rw [hL]; exact h2⟩
        · obtain ⟨g, hg, hgx, hEq, hs⟩ := ih (f.stem :: seen) L hL
          exact ⟨g, List.mem_cons_of_mem _ hg, hgx, hEq,
                 fun hc => hs (List.mem_cons_of_mem _ hc)⟩

/-- The ids emitted by the catalog loop are distinct and disjoint from
    the already-seen set. -/
theorem listLayersAux_nodup (all : List FileEntry) :
    ∀ rest seen, ((listLayersAux all rest seen).map Layer.id).Nodup ∧
      (∀ i ∈ (listLayersAux all rest seen).map Layer.id, i ∉ seen) := by
  intro rest
  induction rest with
  | nil =>
    intro seen
    simp [listLayersAux]
  | cons f rest ih =>
    intro seen
    simp only [listLayersAux]
    by_cases h1 : strToLower f.ext = ".pmtiles"
    · rw [if_pos h1]
      exact ih seen
    · rw [if_neg h1]
      by_cases h2 : f.stem ∈ seen
      · rw [if_pos h2]
        exact ih seen
      · rw [if_neg h2]
        obtain ⟨ihn, ihs⟩ := ih (f.stem :: seen)
        refine ⟨?_, ?_⟩
        · rw [List.map_cons, List.nodup_cons]
          refine ⟨fun hc => ?_, ihn⟩
          exact (ihs _ hc) (List.mem_cons_self _ _)
        · intro i hi
          rw [List.map_cons, List.mem_cons] at hi
          rcases hi with hi | hi
          · rw [hi]
            exact h2
          · exact fun hc => (ihs i hi) (List.mem_cons_of_mem _ hc)

/-- If some non-PMTiles file of the remaining listing has stem `s` and
    `s` is unseen, the loop emits an entry `layerFor all f` for some such
    file. -/
theorem listLayersAux_companion (all : List FileEntry) :
    ∀ rest seen s, s ∉ seen →
      (∃ g ∈ rest, strToLower g.ext ≠ ".pmtiles" ∧ g.stem = s) →
      ∃ f ∈ rest, f.stem = s ∧ strToLower f.ext ≠ ".pmtiles" ∧
        layerFor all f ∈ listLayersAux all rest seen := by
  intro rest
  induction rest with
  | nil =>
    intro seen s _ hex
    obtain ⟨g, hg, -⟩ := hex
    exact absurd hg (List.not_mem_nil g)
  | cons f rest ih =>
    intro seen s hs hex
    simp only [listLayersAux]
    by_cases h1 : strToLower f.ext = ".pmtiles"
    · rw [if_pos h1]
      obtain ⟨g, hg, hgx, hgs⟩ := hex
      rcases List.mem_cons.mp hg with hg | hg
      · exact absurd (hg ▸ h1) hgx
      · obtain ⟨f', hf', hfs, hfx, hfm⟩ := ih seen s hs ⟨g, hg, hgx, hgs⟩
        exact ⟨f', List.mem_cons_of_mem _ hf', hfs, hfx, hfm⟩
    · rw [if_neg h1]
      by_cases h2 : f.stem ∈ seen
      · rw [if_pos h2]
        obtain ⟨g, hg, hgx, hgs⟩ := hex
        rcases List.mem_cons.mp hg with hg | hg
        · subst hg
          exact absurd (hgs ▸ h2) hs
        · obtain ⟨f', hf', hfs, hfx, hfm⟩ := ih seen s hs ⟨g, hg, hgx, hgs⟩
          exact ⟨f', List.mem_cons_of_mem _ hf', hfs, hfx, hfm⟩
      · rw [if_neg h2]
        by_cases h3 : f.stem = s
        · exact ⟨f, List.mem_cons_self _ _, h3, h1, List.mem_cons_self _ _⟩
        · obtain ⟨g, hg, hgx, hgs⟩ := hex
          rcases List.mem_cons.mp hg with hg | hg
          · exact absurd (hg ▸ hgs) h3
          · have hs' : s ∉ f.stem :: seen := by
              intro hc
              rcases List.mem_cons.mp hc with hc | hc
              · exact h3 hc.symm
              · exact hs hc
            obtain ⟨f', hf', hfs, hfx, hfm⟩ := ih (f.stem :: seen) s hs' ⟨g, hg, hgx, hgs⟩
            exact ⟨f', List.mem_cons_of_mem _ hf', hfs, hfx, List.mem_cons_of_mem _ hfm⟩

/-- C7: a catalog listing never contains two entries with the same id;
    every entry comes from a non-PMTiles file; and a `.pmtiles` file
    whose stem also has a non-PMTiles (primary) output is not listed as
    its own layer but reported as the companion URL of the entry with
    that stem. -/
theorem listLayers_catalog (files : List FileEntry) :
    ((listLayers files).map Layer.id).Nodup ∧
    (∀ L ∈ listLayers files, ∃ f ∈ files, strToLower f.ext ≠ ".pmtiles" ∧ L = layerFor files f) ∧
    (∀ p ∈ files, p.ext = ".pmtiles" →
      (∃ g ∈ files, strToLower g.ext ≠ ".pmtiles" ∧ g.stem = p.stem) →
      ∃ L ∈ listLayers files, L.id = p.stem ∧
        L.pmtilesUrl = some ("/processed/" ++ p.stem ++ ".pmtiles")) := by
  refine ⟨(listLayersAux_nodup files files []).1, ?_, ?_⟩
  · intro L hL
    obtain ⟨f, hf, hne, hEq, -⟩ := listLayersAux_mem files files [] L hL
    exact ⟨f, hf, hne, hEq⟩
  · intro p hp hpx hex
    obtain ⟨f, hf, hstem, hne, hmem⟩ :=
      listLayersAux_companion files files [] p.stem (by simp) hex
    have hany : files.any (fun g => entryName g == p.stem ++ ".pmtiles") = true := by
      rw [List.any_eq_true]
      refine ⟨p, hp, ?_⟩
      show (entryName p == p.stem ++ ".pmtiles") = true
      rw [show entryName p = p.stem ++ ".pmtiles" by rw [entryName, hpx]]
      exact beq_self_eq_true _
    refine ⟨layerFor files f, hmem, ?_, ?_⟩
    · show f.stem = p.stem
      exact hstem
    · show (if files.any (fun g => entryName g == f.stem ++ ".pmtiles") then
          some ("/processed/" ++ f.stem ++ ".pmtiles") else none) =
          some ("/processed/" ++ p.stem ++ ".pmtiles")
      rw [hstem, hany]
      rfl

/-- C7 witness: with a primary `a_1.geojson` and companion `a_1.pmtiles`,
    ids are duplicate-free and the single entry `a_1` carries the
    companion URL. -/
theorem listLayers_catalog_witness :
    ((listLayers [⟨"a_1", ".geojson"⟩, ⟨"a_1", ".pmtiles"⟩]).map Layer.id).Nodup ∧
    ∃ L ∈ listLayers [⟨"a_1", ".geojson"⟩, ⟨"a_1", ".pmtiles"⟩],
      L.id = "a_1" ∧ L.pmtilesUrl = some "/processed/a_1.pmtiles" := by
  have h := listLayers_catalog [⟨"a_1", ".geojson"⟩, ⟨"a_1", ".pmtiles"⟩]
  refine ⟨h.1, ?_⟩
  have h3 := h.2.2 ⟨"a_1", ".pmtiles"⟩ (by simp) rfl
    ⟨⟨"a_1", ".geojson"⟩, by simp, by decide, rfl⟩
  obtain ⟨L, hm, hid, hurl⟩ := h3
  exact ⟨L, hm, hid, by rw [hurl]; rfl⟩

/-- If no stem ends with the id, the deletion loop removes nothing. -/
theorem deleteLayer_no_match (lid : String) :
    ∀ files, (∀ x ∈ files, strEndsWith x.stem lid = false) →
      deleteLayer lid files = (false, files) := by
  intro files
  induction files with
  | nil =>
    intro _
    rfl
  | cons f rest ih =>
    intro h
    have hf := h f (List.mem_cons_self _ _)
    simp only [deleteLayer, hf, Bool.false_eq_true, if_false]
    rw [ih (fun x hx => h x (List.mem_cons_of_mem _ hx))]

/-- The deletion loop removes exactly the first matching file. -/
theorem deleteLayer_first_match (lid : String) :
    ∀ l₁ x l₂, (∀ y ∈ l₁, strEndsWith y.stem lid = false) →
      strEndsWith x.stem lid = true →
      deleteLayer lid (l₁ ++ x :: l₂) = (true, l₁ ++ l₂) := by
  intro l₁
  induction l₁ with
  | nil =>
    intro x l₂ _ hx
    simp only [List.nil_append, deleteLayer, hx, if_true]
  | cons y t ih =>
    intro x l₂ hy hx
    have hyf := hy y (List.mem_cons_self _ _)
    simp only [List.cons_append, List.append_eq, deleteLayer, hyf, Bool.false_eq_true, if_false]
    rw [ih x l₂ (fun z hz => hy z (List.mem_cons_of_mem _ hz)) hx]

/-- If any stem ends with the id, the deletion loop reports a deletion. -/
theorem deleteLayer_any_match (lid : String) :
    ∀ files, (∃ x ∈ files, strEndsWith x.stem lid = true) →
      (deleteLayer lid files).1 = true := by
  intro files
  induction files with
  | nil =>
    intro hex
    obtain ⟨x, hx, -⟩ := hex
    exact absurd hx (List.not_mem_nil x)
  | cons f rest ih =>
    intro hex
    by_cases hf : strEndsWith f.stem lid = true
    · simp only [deleteLayer, hf, if_true]
    · simp only [deleteLayer, hf, Bool.false_eq_true, if_false]
      obtain ⟨x, hx, hxe⟩ := hex
      rcases List.mem_cons.mp hx with hx | hx
      · exact absurd (hx ▸ hxe) hf
      · exact ih ⟨x, hx, hxe⟩

/-- C10: deletion removes exactly the first file whose stem ends with the
    id (leaving every other file unchanged) and answers 200; it answers
    404, touching nothing, precisely when no stem ends with the id. -/
theorem deleteLayer_spec (files : List FileEntry) (lid : String) :
    ((∀ x ∈ files, strEndsWith x.stem lid = false) →
      deleteLayerResponse files lid = (⟨404, [], [], "Layer not found"⟩, files)) ∧
    (∀ l₁ x l₂, files = l₁ ++ x :: l₂ →
      (∀ y ∈ l₁, strEndsWith y.stem lid = false) → strEndsWith x.stem lid = true →
      deleteLayerResponse files lid = (⟨200, [], [], ""⟩, l₁ ++ l₂)) ∧
    ((∃ x ∈ files, strEndsWith x.stem lid = true) →
      (deleteLayerResponse files lid).1.status = 200) := by
  refine ⟨?_, ?_, ?_⟩
  · intro h
    unfold deleteLayerResponse
    rw [deleteLayer_no_match lid files h]
    rfl
  · intro l₁ x l₂ hEq hl hx
    subst hEq
    unfold deleteLayerResponse
    rw [deleteLayer_first_match lid l₁ x l₂ hl hx]
    rfl
  · intro hex
    unfold deleteLayerResponse
    simp only [deleteLayer_any_match lid files hex, if_true]

/-- C10 witness: id "2" deletes only the first match `b_2.tif` and leaves
    the rest; id "9" matches nothing and yields 404 with the directory
    unchanged. -/
theorem deleteLayer_spec_witness :
    deleteLayerResponse [⟨"a_1", ".tif"⟩, ⟨"b_2", ".tif"⟩, ⟨"c_2", ".tif"⟩] "2" =
      (⟨200, [], [], ""⟩, [⟨"a_1", ".tif"⟩, ⟨"c_2", ".tif"⟩]) ∧
    deleteLayerResponse [⟨"a_1", ".tif"⟩] "9" =
      (⟨404, [], [], "Layer not found"⟩, [⟨"a_1", ".tif"⟩]) := by
  have h1 := (deleteLayer_spec [⟨"a_1", ".tif"⟩, ⟨"b_2", ".tif"⟩, ⟨"c_2", ".tif"⟩] "2").2.1
    [⟨"a_1", ".tif"⟩] ⟨"b_2", ".tif"⟩ [⟨"c_2", ".tif"⟩] rfl (by decide) (by decide)
  have h2 := (deleteLayer_spec [⟨"a_1", ".tif"⟩] "9").1 (by decide)
  exact ⟨h1, h2⟩
